import Mathlib

/-!
Shallow embedding of the google-task-cli sources (src/onepassword.ts, the
photos viewer / auth / uploader modules of src/photo-view.ts, and server.ts)
together with proofs of the specified properties.  External collaborators
(the op CLI, the filesystem, the HTTP stack, JSON.parse and JSON.stringify)
are modelled by explicit inputs or small semantic types.
-/

set_option maxHeartbeats 1000000

namespace GTCli

/-- A JSON value, modelling the payloads handled by JSON.parse and
JSON.stringify. -/
inductive JsonVal where
  | null
  | bool (b : Bool)
  | num (n : Int)
  | str (s : String)
  | arr (elems : List JsonVal)
  | obj (fields : List (String × JsonVal))

/-- Property lookup on a JSON object field list (first match; the objects the
code builds have distinct keys). -/
def objLookup (fields : List (String × JsonVal)) (k : String) : Option JsonVal :=
  (fields.find? (fun p => p.1 == k)).map (fun p => p.2)

/-- A JavaScript field of declared type alpha: absent (undefined), null, or a
value.  Models the optional nullable fields of OAuthTokens. -/
inductive JsField (α : Type) where
  | undef
  | null
  | val (a : α)
deriving DecidableEq

/-- OAuthTokens (src/onepassword.ts lines 22 to 29): every field optional and
nullable. -/
structure OAuthTokens where
  access_token : JsField String
  refresh_token : JsField String
  scope : JsField String
  token_type : JsField String
  expiry_date : JsField Int
  id_token : JsField String
deriving DecidableEq

/-- One string field of the JSON.stringify output: an undefined field is
omitted, a null field serializes to null, a present value to a JSON string. -/
def strFieldJson (name : String) : JsField String → List (String × JsonVal)
  | JsField.undef => []
  | JsField.null => [(name, JsonVal.null)]
  | JsField.val s => [(name, JsonVal.str s)]

/-- One numeric field of the JSON.stringify output. -/
def numFieldJson (name : String) : JsField Int → List (String × JsonVal)
  | JsField.undef => []
  | JsField.null => [(name, JsonVal.null)]
  | JsField.val n => [(name, JsonVal.num n)]

/-- JSON.stringify(tokens): an object carrying the token fields in order,
undefined fields omitted. -/
def tokensToJson (t : OAuthTokens) : JsonVal :=
  JsonVal.obj
    (strFieldJson "access_token" t.access_token ++
     strFieldJson "refresh_token" t.refresh_token ++
     strFieldJson "scope" t.scope ++
     strFieldJson "token_type" t.token_type ++
     numFieldJson "expiry_date" t.expiry_date ++
     strFieldJson "id_token" t.id_token)

/-- Reading one string token field back from parsed JSON, as the unchecked
cast in loadToken does: an absent property reads as undefined. -/
def readStrField (j : JsonVal) (k : String) : JsField String :=
  match j with
  | JsonVal.obj fs =>
    match objLookup fs k with
    | some JsonVal.null => JsField.null
    | some (JsonVal.str s) => JsField.val s
    | _ => JsField.undef
  | _ => JsField.undef

/-- Reading one numeric token field back from parsed JSON. -/
def readNumField (j : JsonVal) (k : String) : JsField Int :=
  match j with
  | JsonVal.obj fs =>
    match objLookup fs k with
    | some JsonVal.null => JsField.null
    | some (JsonVal.num n) => JsField.val n
    | _ => JsField.undef
  | _ => JsField.undef

/-- The object produced by JSON.parse on the token file followed by the
unchecked cast to OAuthTokens. -/
def tokensFromJson (j : JsonVal) : OAuthTokens :=
  { access_token := readStrField j "access_token",
    refresh_token := readStrField j "refresh_token",
    scope := readStrField j "scope",
    token_type := readStrField j "token_type",
    expiry_date := readNumField j "expiry_date",
    id_token := readStrField j "id_token" }

/-- The content of the token file: either a text that JSON.parse accepts
(kept as its parse) or a text it rejects. -/
inductive FileContent where
  | valid (j : JsonVal)
  | invalid (raw : String)

/-- saveToken (src/onepassword.ts lines 101 to 104): fs.writeFile replaces
the file content with JSON.stringify(tokens) whatever was there before. -/
def saveToken (tokens : OAuthTokens) (_prior : Option FileContent) :
    Option FileContent :=
  some (FileContent.valid (tokensToJson tokens))

/-- The fs.writeFile call in the token exchange handler of server.ts
(line 176): the same wholesale replacement. -/
def serverStoreToken (tokens : OAuthTokens) (_prior : Option FileContent) :
    Option FileContent :=
  some (FileContent.valid (tokensToJson tokens))

/-- loadToken (src/onepassword.ts lines 109 to 116): a missing file (readFile
throws) or invalid JSON (JSON.parse throws) is caught and yields null;
otherwise the parsed value is cast to OAuthTokens. -/
def loadToken (file : Option FileContent) : Option OAuthTokens :=
  match file with
  | none => none
  | some (FileContent.invalid _) => none
  | some (FileContent.valid j) => some (tokensFromJson j)

lemma tokensFromJson_tokensToJson (t : OAuthTokens) :
    tokensFromJson (tokensToJson t) = t := by
  obtain ⟨a, r, s, ty, e, i⟩ := t
  cases a <;> cases r <;> cases s <;> cases ty <;> cases e <;> cases i <;> rfl

/-- C4: saving tokens replaces the token file wholesale.  After saveToken
(and after the fs.writeFile of the token exchange handler in server.ts) the
file content is exactly the JSON serialization of the new tokens, independent
of any prior content, so no field of the previous content survives. -/
theorem saveToken_overwrites_wholesale :
    ∀ (tokens : OAuthTokens) (prior prior2 : Option FileContent),
      saveToken tokens prior = some (FileContent.valid (tokensToJson tokens)) ∧
      saveToken tokens prior = saveToken tokens prior2 ∧
      serverStoreToken tokens prior =
        some (FileContent.valid (tokensToJson tokens)) ∧
      serverStoreToken tokens prior = serverStoreToken tokens prior2 :=
  fun _ _ _ => ⟨rfl, rfl, rfl, rfl⟩

/-- C10: saveToken then loadToken round-trips every representable tokens
record, and loadToken returns null rather than throwing when the token file
is missing or its content is not valid JSON. -/
theorem token_roundtrip_and_null_on_invalid :
    (∀ (t : OAuthTokens) (prior : Option FileContent),
        loadToken (saveToken t prior) = some t) ∧
      loadToken none = none ∧
      ∀ raw, loadToken (some (FileContent.invalid raw)) = none := by
  refine ⟨fun t prior => ?_, rfl, fun raw => rfl⟩
  show some (tokensFromJson (tokensToJson t)) = some t
  rw [tokensFromJson_tokensToJson]

/-- Credentials (src/onepassword.ts lines 16 to 20). -/
structure Credentials where
  client_id : String
  client_secret : String
  redirect_uris : List String
deriving DecidableEq

/-- Outcomes of the external op CLI invocations performed by the credential
loader: whether op version and op item list succeed, and the results of the
two op item get calls. -/
structure OpEnv where
  versionOk : Bool
  listOk : Bool
  clientIdResult : Except String String
  clientSecretResult : Except String String

/-- check1PasswordCLI (src/onepassword.ts lines 34 to 43): true iff the op
version command succeeds (CLI installed) and op item list succeeds (signed
in); any throw is caught and yields false. -/
def check1PasswordCLI (env : OpEnv) : Bool :=
  env.versionOk && env.listOk

/-- getCredentialsFrom1Password (src/onepassword.ts lines 48 to 89): runs the
two op item get commands in order; any failure is caught and yields null,
otherwise the trimmed outputs are returned with the provided redirect URI. -/
def getCredentialsFrom1Password (env : OpEnv) (redirectUri : String) :
    Option Credentials :=
  match env.clientIdResult with
  | Except.error _ => none
  | Except.ok cid =>
    match env.clientSecretResult with
    | Except.error _ => none
    | Except.ok cs =>
      some { client_id := cid.trim, client_secret := cs.trim,
             redirect_uris := [redirectUri] }

/-- The OAuth2 client constructed by authorize (vendor SDK object), reduced
to its constructor arguments. -/
structure OAuthClientM where
  client_id : String
  client_secret : String
  redirectUri : String
deriving DecidableEq

/-- authorize (auth module of src/photo-view.ts, lines 402 to 440): ensures
the token directory, returns null when the 1Password CLI check fails or the
credential fetch fails, and otherwise hands the constructed client to the new
token flow (abstracted as an argument: it involves the browser and the
callback server). -/
def authorize (env : OpEnv) (redirectUri : String)
    (getNewTokenFlow : OAuthClientM → Option OAuthClientM) :
    Option OAuthClientM :=
  if check1PasswordCLI env then
    match getCredentialsFrom1Password env redirectUri with
    | none => none
    | some c =>
      getNewTokenFlow
        { client_id := c.client_id, client_secret := c.client_secret,
          redirectUri := c.redirect_uris.getD 0 "" }
  else none

/-- C3: the credential loader fails closed.  When check1PasswordCLI returns
false, authorize returns null; and when an op item get invocation fails,
getCredentialsFrom1Password returns null and authorize returns null, so no
credentials are produced. -/
theorem credential_loader_fails_closed :
    ∀ (env : OpEnv) (uri : String)
      (flow : OAuthClientM → Option OAuthClientM),
      (check1PasswordCLI env = false → authorize env uri flow = none) ∧
      (((∃ m, env.clientIdResult = Except.error m) ∨
          (∃ m, env.clientSecretResult = Except.error m)) →
        getCredentialsFrom1Password env uri = none ∧
          authorize env uri flow = none) := by
  intro env uri flow
  constructor
  · intro h
    simp [authorize, h]
  · intro h
    have hc : getCredentialsFrom1Password env uri = none := by
      rcases h with ⟨m, hm⟩ | ⟨m, hm⟩
      · simp [getCredentialsFrom1Password, hm]
      · cases hid : env.clientIdResult <;>
          simp [getCredentialsFrom1Password, hid, hm]
    refine ⟨hc, ?_⟩
    by_cases hchk : check1PasswordCLI env = true
    · simp [authorize, hchk, hc]
    · simp [authorize, hchk]

def c3Env : OpEnv :=
  { versionOk := false, listOk := false,
    clientIdResult := Except.error "op not found",
    clientSecretResult := Except.error "op not found" }

theorem credential_loader_fails_closed_witness :
    authorize c3Env "http://localhost:3000" (fun c => some c) = none ∧
      getCredentialsFrom1Password c3Env "http://localhost:3000" = none :=
  ⟨(credential_loader_fails_closed c3Env "http://localhost:3000"
        (fun c => some c)).1 rfl,
    ((credential_loader_fails_closed c3Env "http://localhost:3000"
          (fun c => some c)).2 (Or.inl ⟨"op not found", rfl⟩)).1⟩

/-- MediaItem (src/photo-view.ts lines 6 to 32), the nested metadata record
reduced to the fields the claims touch. -/
structure MediaItem where
  id : String
  filename : String
  description : Option String
  productUrl : String
  baseUrl : String
  mimeType : String
deriving DecidableEq

/-- ListMediaItemsResponse (src/photo-view.ts lines 34 to 37).  At runtime
the mediaItems field can be absent, and listAllMediaItems checks for that. -/
structure ListMediaItemsResponse where
  mediaItems : Option (List MediaItem)
  nextPageToken : Option String
deriving DecidableEq

/-- JS truthiness of the while (nextPageToken) test: an absent token and the
empty string are both falsy. -/
def tokenContinues : Option String → Bool
  | none => false
  | some s => !(s == "")

/-- The do-while loop of listAllMediaItems (src/photo-view.ts lines 172 to
196), with the successive listMediaItems responses supplied by pages (the
k-th request receives pages k) and an explicit fuel bound; none means the
fuel ran out with the loop still going.  The returned Nat is the number of
requests made. -/
def listAllLoop (pages : Nat → ListMediaItemsResponse) :
    Nat → Nat → List MediaItem → Option (List MediaItem × Nat)
  | 0, _, _ => none
  | fuel + 1, k, allItems =>
    if tokenContinues (pages k).nextPageToken then
      listAllLoop pages fuel (k + 1) (allItems ++ (pages k).mediaItems.getD [])
    else
      some (allItems ++ (pages k).mediaItems.getD [], k + 1)

/-- listAllMediaItems run from the first request with an empty accumulator. -/
def listAllMediaItems (pages : Nat → ListMediaItemsResponse) (fuel : Nat) :
    Option (List MediaItem × Nat) :=
  listAllLoop pages fuel 0 []

lemma listAllLoop_stops (pages : Nat → ListMediaItemsResponse) :
    ∀ (n fuel k : Nat) (acc : List MediaItem),
      tokenContinues (pages (k + n)).nextPageToken = false →
      (∀ j, j < n → tokenContinues (pages (k + j)).nextPageToken = true) →
      n < fuel →
      listAllLoop pages fuel k acc =
        some (acc ++ ((List.range (n + 1)).map
            (fun j => (pages (k + j)).mediaItems.getD [])).flatten,
          k + n + 1) := by
  intro n
  induction n with
  | zero =>
    intro fuel k acc hstop _ hfuel
    obtain ⟨f, rfl⟩ : ∃ f, fuel = f + 1 := ⟨fuel - 1, by omega⟩
    simp only [Nat.add_zero] at hstop
    simp [listAllLoop, hstop, List.range_succ]
  | succ n ih =>
    intro fuel k acc hstop hcont hfuel
    obtain ⟨f, rfl⟩ : ∃ f, fuel = f + 1 := ⟨fuel - 1, by omega⟩
    have h0 : tokenContinues (pages k).nextPageToken = true := by
      have := hcont 0 (Nat.succ_pos n)
      simpa using this
    have hrec := ih f (k + 1) (acc ++ (pages k).mediaItems.getD [])
      (by
        have e : k + 1 + n = k + (n + 1) := by omega
        rw [e]; exact hstop)
      (fun j hj => by
        have h := hcont (j + 1) (by omega)
        have e : k + (j + 1) = k + 1 + j := by omega
        rw [e] at h; exact h)
      (by omega)
    have hsplit :
        ((List.range (n + 1 + 1)).map
            (fun j => (pages (k + j)).mediaItems.getD [])).flatten
          = (pages k).mediaItems.getD [] ++
            ((List.range (n + 1)).map
              (fun j => (pages (k + 1 + j)).mediaItems.getD [])).flatten := by
      rw [List.range_succ_eq_map, List.map_cons, List.flatten_cons,
        List.map_map]
      have h1 : (pages (k + 0)).mediaItems.getD []
          = (pages k).mediaItems.getD [] := by
        rw [Nat.add_zero]
      rw [h1]
      congr 1
      refine congrArg List.flatten (List.map_congr_left ?_)
      intro j _
      simp only [Function.comp_apply]
      have e : k + Nat.succ j = k + 1 + j := by omega
      rw [e]
    simp only [listAllLoop, h0, if_true]
    rw [hrec, hsplit]
    have e2 : k + 1 + n + 1 = k + (n + 1) + 1 := by omega
    rw [e2, List.append_assoc]

lemma listAllLoop_runs (pages : Nat → ListMediaItemsResponse) :
    ∀ (fuel k : Nat) (acc : List MediaItem),
      (∀ j, j < fuel → tokenContinues (pages (k + j)).nextPageToken = true) →
      listAllLoop pages fuel k acc = none := by
  intro fuel
  induction fuel with
  | zero => intro k acc _; rfl
  | succ f ih =>
    intro k acc h
    have h0 : tokenContinues (pages k).nextPageToken = true := by
      have := h 0 (Nat.succ_pos f)
      simpa using this
    simp only [listAllLoop, h0, if_true]
    exact ih (k + 1) _ (fun j hj => by
      have hh := h (j + 1) (by omega)
      have e : k + (j + 1) = k + 1 + j := by omega
      rw [e] at hh; exact hh)

def c1Pages : Nat → ListMediaItemsResponse :=
  fun _ => { mediaItems := some [], nextPageToken := some "" }

/-- C1 counterexample: every response carries a nextPageToken (the empty
string), yet the run stops after the first request, because the JS while test
treats the empty string as false; so the loop does not keep requesting for as
long as a token is present, and it stops at a response whose token is not
absent. -/
theorem listAllMediaItems_empty_token_counterexample :
    (c1Pages 0).nextPageToken = some "" ∧
      listAllMediaItems c1Pages 5 = some ([], 1) :=
  ⟨rfl, rfl⟩

/-- C1 (amended): the pagination loop terminates exactly at the first
response whose nextPageToken is falsy under the JS while test (absent or
empty): with n the index of that response, any fuel above n yields
termination after exactly n + 1 requests, and while every response seen so
far carries a truthy token the loop keeps requesting (any fuel up to n is
exhausted with the loop still going). -/
theorem listAllMediaItems_stops_at_first_falsy_token
    (pages : Nat → ListMediaItemsResponse) (n : Nat)
    (hstop : tokenContinues (pages n).nextPageToken = false)
    (hcont : ∀ k, k < n → tokenContinues (pages k).nextPageToken = true) :
    (∀ fuel, n < fuel →
        ∃ items, listAllMediaItems pages fuel = some (items, n + 1)) ∧
      ∀ fuel, fuel ≤ n → listAllMediaItems pages fuel = none := by
  constructor
  · intro fuel hf
    have h := listAllLoop_stops pages n fuel 0 [] (by simpa using hstop)
      (fun j hj => by simpa using hcont j hj) hf
    exact ⟨_, by simpa [listAllMediaItems] using h⟩
  · intro fuel hf
    exact listAllLoop_runs pages fuel 0 []
      (fun j hj => by simpa using hcont j (by omega))

def c1WitnessPages : Nat → ListMediaItemsResponse :=
  fun k =>
    if k < 2 then { mediaItems := some [], nextPageToken := some "tok" }
    else { mediaItems := some [], nextPageToken := none }

theorem listAllMediaItems_stops_witness :
    (∃ items, listAllMediaItems c1WitnessPages 3 = some (items, 3)) ∧
      listAllMediaItems c1WitnessPages 2 = none :=
  ⟨(listAllMediaItems_stops_at_first_falsy_token c1WitnessPages 2 (by decide)
        (by decide)).1 3 (by decide),
    (listAllMediaItems_stops_at_first_falsy_token c1WitnessPages 2 (by decide)
        (by decide)).2 2 (by decide)⟩

/-- C2: when the loop terminates (first falsy token at response n), the items
returned are the concatenation, in request order, of the mediaItems lists of
responses 0 through n, a response with an absent mediaItems field
contributing nothing. -/
theorem listAllMediaItems_concats_pages_in_order
    (pages : Nat → ListMediaItemsResponse) (n : Nat)
    (hstop : tokenContinues (pages n).nextPageToken = false)
    (hcont : ∀ k, k < n → tokenContinues (pages k).nextPageToken = true) :
    ∀ fuel, n < fuel →
      listAllMediaItems pages fuel =
        some (((List.range (n + 1)).map
            (fun k => (pages k).mediaItems.getD [])).flatten, n + 1) := by
  intro fuel hf
  have h := listAllLoop_stops pages n fuel 0 [] (by simpa using hstop)
    (fun j hj => by simpa using hcont j hj) hf
  simpa [listAllMediaItems] using h

def c2WitnessItem (s : String) : MediaItem :=
  { id := s, filename := s ++ ".jpg", description := none,
    productUrl := "p", baseUrl := "b", mimeType := "image/jpeg" }

def c2WitnessPages : Nat → ListMediaItemsResponse :=
  fun k =>
    if k = 0 then
      { mediaItems := some [c2WitnessItem "a", c2WitnessItem "b"],
        nextPageToken := some "t1" }
    else if k = 1 then { mediaItems := none, nextPageToken := some "t2" }
    else { mediaItems := some [c2WitnessItem "c"], nextPageToken := none }

theorem listAllMediaItems_concat_witness :
    listAllMediaItems c2WitnessPages 9 =
      some ([c2WitnessItem "a", c2WitnessItem "b", c2WitnessItem "c"], 3) := by
  have h := listAllMediaItems_concats_pages_in_order c2WitnessPages 2
    (by decide) (by decide) 9 (by decide)
  rw [h]
  rfl

/-- Node path.extname (library function): the text from the last dot of the
final path segment to its end; empty when there is no dot or when the only
dot leads the segment. -/
def lastDotIndex (cs : List Char) : Option Nat :=
  ((List.range cs.length).filter (fun i => cs.getD i ' ' == '.')).getLast?

/-- extname, continued: applied to the final slash-separated segment. -/
def extname (p : String) : String :=
  match lastDotIndex ((p.splitOn "/").getLastD "").toList with
  | none => ""
  | some 0 => ""
  | some i => String.mk ((((p.splitOn "/").getLastD "").toList).drop i)

/-- The extension table of getMimeType (src/photo-view.ts lines 928 to 944),
an object literal used as a lookup map. -/
def mimeTypes : List (String × String) :=
  [(".jpg", "image/jpeg"), (".jpeg", "image/jpeg"), (".png", "image/png"),
   (".gif", "image/gif"), (".webp", "image/webp"), (".bmp", "image/bmp"),
   (".tiff", "image/tiff"), (".tif", "image/tiff"), (".heic", "image/heic"),
   (".avif", "image/avif"), (".mp4", "video/mp4"),
   (".mov", "video/quicktime"), (".avi", "video/x-msvideo"),
   (".mkv", "video/x-matroska"), (".webm", "video/webm")]

/-- getMimeType (src/photo-view.ts lines 926 to 947): look up the lowercased
extension, defaulting to application/octet-stream. -/
def getMimeType (fileName : String) : String :=
  ((mimeTypes.find? (fun p => p.1 == (extname fileName).toLower)).map
      (fun p => p.2)).getD "application/octet-stream"

/-- The extension table stated by the spec (section 8 and claim C5), written
directly from the claim text, keyed by lowercased extension. -/
def specMime (ext : String) : String :=
  if ext = ".jpg" then "image/jpeg"
  else if ext = ".jpeg" then "image/jpeg"
  else if ext = ".png" then "image/png"
  else if ext = ".gif" then "image/gif"
  else if ext = ".webp" then "image/webp"
  else if ext = ".bmp" then "image/bmp"
  else if ext = ".tiff" then "image/tiff"
  else if ext = ".tif" then "image/tiff"
  else if ext = ".heic" then "image/heic"
  else if ext = ".avif" then "image/avif"
  else if ext = ".mp4" then "video/mp4"
  else if ext = ".mov" then "video/quicktime"
  else if ext = ".avi" then "video/x-msvideo"
  else if ext = ".mkv" then "video/x-matroska"
  else if ext = ".webm" then "video/webm"
  else "application/octet-stream"

lemma find?_table_ne (key v e : String) (rest : List (String × String))
    (h : e ≠ key) :
    ((key, v) :: rest).find? (fun p => p.1 == e) =
      rest.find? (fun p => p.1 == e) := by
  apply List.find?_cons_of_neg
  simp only [beq_iff_eq]
  exact fun hh => h hh.symm

lemma mimeLookup_eq_spec (e : String) :
    ((mimeTypes.find? (fun p => p.1 == e)).map (fun p => p.2)).getD
      "application/octet-stream" = specMime e := by
  by_cases h1 : e = ".jpg"
  · subst h1; rfl
  by_cases h2 : e = ".jpeg"
  · subst h2; rfl
  by_cases h3 : e = ".png"
  · subst h3; rfl
  by_cases h4 : e = ".gif"
  · subst h4; rfl
  by_cases h5 : e = ".webp"
  · subst h5; rfl
  by_cases h6 : e = ".bmp"
  · subst h6; rfl
  by_cases h7 : e = ".tiff"
  · subst h7; rfl
  by_cases h8 : e = ".tif"
  · subst h8; rfl
  by_cases h9 : e = ".heic"
  · subst h9; rfl
  by_cases h10 : e = ".avif"
  · subst h10; rfl
  by_cases h11 : e = ".mp4"
  · subst h11; rfl
  by_cases h12 : e = ".mov"
  · subst h12; rfl
  by_cases h13 : e = ".avi"
  · subst h13; rfl
  by_cases h14 : e = ".mkv"
  · subst h14; rfl
  by_cases h15 : e = ".webm"
  · subst h15; rfl
  simp only [mimeTypes]
  rw [find?_table_ne _ _ _ _ h1, find?_table_ne _ _ _ _ h2,
    find?_table_ne _ _ _ _ h3, find?_table_ne _ _ _ _ h4,
    find?_table_ne _ _ _ _ h5, find?_table_ne _ _ _ _ h6,
    find?_table_ne _ _ _ _ h7, find?_table_ne _ _ _ _ h8,
    find?_table_ne _ _ _ _ h9, find?_table_ne _ _ _ _ h10,
    find?_table_ne _ _ _ _ h11, find?_table_ne _ _ _ _ h12,
    find?_table_ne _ _ _ _ h13, find?_table_ne _ _ _ _ h14,
    find?_table_ne _ _ _ _ h15, List.find?_nil]
  simp [specMime, h1, h2, h3, h4, h5, h6, h7, h8, h9, h10, h11, h12, h13,
    h14, h15]

/-- C5: for every file name, getMimeType agrees with the table stated by the
spec, keyed by the lowercased extension of the name: each known extension
maps to its expected content type and every other extension maps to
application/octet-stream. -/
theorem getMimeType_matches_spec_table :
    ∀ fileName, getMimeType fileName = specMime ((extname fileName).toLower) :=
  fun fileName => mimeLookup_eq_spec ((extname fileName).toLower)

/-- The 2xx test of the response handlers: the status code must be truthy
(present and nonzero) and within 200 to 299. -/
def is2xx : Option Nat → Bool
  | none => false
  | some c => decide (200 ≤ c) && decide (c < 300)

/-- The string interpolation of res.statusCode: an undefined code prints as
the text undefined. -/
def statusToString : Option Nat → String
  | none => "undefined"
  | some c => toString c

/-- The error message fallback of the handlers, reading error.message from
the parsed body when it is a nonempty string (the JS or-fallback treats a
missing or empty message as absent). -/
def errMessageOf (j : JsonVal) : Option String :=
  match j with
  | JsonVal.obj fs =>
    match objLookup fs "error" with
    | some (JsonVal.obj efs) =>
      match objLookup efs "message" with
      | some (JsonVal.str s) => if s == "" then none else some s
      | _ => none
    | _ => none
  | _ => none

/-- Common shape of the end handlers of listMediaItems, getMediaItem and
batchCreateMediaItems, which differ only in the operation prefix of the
status message: the body is parsed first (a JSON.parse throw, whose message
is parseErrMsg, is caught and rejected as a parse error), then the 2xx test
decides between resolving the parsed value and rejecting with the prefix,
the status code and the parsed error message or raw body. -/
def parsedOnEnd (opMsg : String) (statusCode : Option Nat)
    (parsed : Option JsonVal) (responseData parseErrMsg : String) :
    Except String JsonVal :=
  match parsed with
  | none => Except.error ("Failed to parse response: " ++ parseErrMsg)
  | some p =>
    if is2xx statusCode then Except.ok p
    else
      Except.error (opMsg ++ statusToString statusCode ++ " - " ++
        ((errMessageOf p).getD responseData))

/-- The end handler of listMediaItems (src/photo-view.ts lines 124 to 153). -/
def listOnEnd :
    Option Nat → Option JsonVal → String → String → Except String JsonVal :=
  parsedOnEnd "List request failed: "

/-- The end handler of getMediaItem (src/photo-view.ts lines 273 to 298). -/
def getMediaItemOnEnd :
    Option Nat → Option JsonVal → String → String → Except String JsonVal :=
  parsedOnEnd "Get media item failed: "

/-- The end handler of batchCreateMediaItems (src/photo-view.ts lines 830 to
855). -/
def batchCreateOnEnd :
    Option Nat → Option JsonVal → String → String → Except String JsonVal :=
  parsedOnEnd "BatchCreate failed: "

/-- The end handler of uploadBytes (src/photo-view.ts lines 741 to 755): no
parsing; the raw body is resolved on 2xx and included in the rejection
message otherwise. -/
def uploadBytesOnEnd (statusCode : Option Nat) (responseData : String) :
    Except String String :=
  if is2xx statusCode then Except.ok responseData
  else
    Except.error ("Upload failed: " ++ statusToString statusCode ++ " - " ++
      responseData)

/-- Whether the needle list heads the hay list. -/
def leadMatch : List Char → List Char → Bool
  | [], _ => true
  | _ :: _, [] => false
  | a :: as, b :: bs => a == b && leadMatch as bs

/-- Whether the needle occurs somewhere in the hay. -/
def occursIn (needle : List Char) : List Char → Bool
  | [] => needle.isEmpty
  | c :: cs => leadMatch needle (c :: cs) || occursIn needle cs

/-- Substring test on strings. -/
def strIncludes (needle hay : String) : Bool :=
  occursIn needle.toList hay.toList

lemma leadMatch_append (n t : List Char) : leadMatch n (n ++ t) = true := by
  induction n with
  | nil => rfl
  | cons a as ih => simp [leadMatch, ih]

lemma occursIn_head (n t : List Char) : occursIn n (n ++ t) = true := by
  cases n with
  | nil => cases t <;> rfl
  | cons a as =>
    have h := leadMatch_append (a :: as) t
    simp only [List.cons_append] at h
    simp [occursIn, h]

lemma occursIn_append_right (n p h : List Char)
    (hh : occursIn n h = true) : occursIn n (p ++ h) = true := by
  induction p with
  | nil => simpa using hh
  | cons a as ih => simp [occursIn, ih]

lemma strIncludes_statusParts (pre s post : String) :
    strIncludes s (pre ++ s ++ " - " ++ post) = true := by
  unfold strIncludes
  have h : (pre ++ s ++ " - " ++ post).toList
      = pre.toList ++ (s.toList ++ (" - " ++ post).toList) := by
    show (pre ++ s ++ " - " ++ post).data
        = pre.data ++ (s.data ++ (" - " ++ post).data)
    simp [String.data_append, List.append_assoc]
  rw [h]
  exact occursIn_append_right _ _ _ (occursIn_head _ _)

lemma parsedOnEnd_non2xx (opMsg : String) (sc : Option Nat) (p : JsonVal)
    (rd pe : String) (h : is2xx sc = false) :
    parsedOnEnd opMsg sc (some p) rd pe =
        Except.error (opMsg ++ statusToString sc ++ " - " ++
          ((errMessageOf p).getD rd)) ∧
      strIncludes (statusToString sc)
        (opMsg ++ statusToString sc ++ " - " ++ ((errMessageOf p).getD rd)) =
        true :=
  ⟨by simp [parsedOnEnd, h], strIncludes_statusParts _ _ _⟩

lemma parsedOnEnd_ok_2xx (opMsg : String) (sc : Option Nat)
    (p : Option JsonVal) (rd pe : String) (v : JsonVal)
    (h : parsedOnEnd opMsg sc p rd pe = Except.ok v) : is2xx sc = true := by
  cases p with
  | none => simp [parsedOnEnd] at h
  | some j =>
    by_cases h2 : is2xx sc = true
    · exact h2
    · rw [Bool.not_eq_true] at h2
      simp [parsedOnEnd, h2] at h

/-- C6 counterexample: a non-2xx response whose body does not parse as JSON
is rejected through the parse branch of listOnEnd, with a message that does
not include the status code. -/
theorem nonparseable_error_omits_status_code :
    is2xx (some 500) = false ∧
      listOnEnd (some 500) none "oops" "Unexpected token" =
        Except.error "Failed to parse response: Unexpected token" ∧
      strIncludes "500" "Failed to parse response: Unexpected token" =
        false := by
  refine ⟨rfl, rfl, by decide⟩

/-- C6 (amended): for listMediaItems, getMediaItem and batchCreateMediaItems,
a non-2xx response whose body parses as JSON rejects with a message carrying
the status code; an unparseable body rejects with a descriptive parse error
whatever the status; and for uploadBytes (no parsing) every non-2xx response
rejects with the status code in the message.  Each handler resolves only on a
2xx status, and each operation issues its single request without retry. -/
theorem response_handlers_error_behavior :
    (∀ sc p rd pe, is2xx sc = false →
        listOnEnd sc (some p) rd pe =
            Except.error ("List request failed: " ++ statusToString sc ++
              " - " ++ ((errMessageOf p).getD rd)) ∧
          strIncludes (statusToString sc)
            ("List request failed: " ++ statusToString sc ++ " - " ++
              ((errMessageOf p).getD rd)) = true) ∧
    (∀ sc rd pe, listOnEnd sc none rd pe =
        Except.error ("Failed to parse response: " ++ pe)) ∧
    (∀ sc p rd pe v, listOnEnd sc p rd pe = Except.ok v →
        is2xx sc = true) ∧
    (∀ sc p rd pe, is2xx sc = false →
        getMediaItemOnEnd sc (some p) rd pe =
            Except.error ("Get media item failed: " ++ statusToString sc ++
              " - " ++ ((errMessageOf p).getD rd)) ∧
          strIncludes (statusToString sc)
            ("Get media item failed: " ++ statusToString sc ++ " - " ++
              ((errMessageOf p).getD rd)) = true) ∧
    (∀ sc rd pe, getMediaItemOnEnd sc none rd pe =
        Except.error ("Failed to parse response: " ++ pe)) ∧
    (∀ sc p rd pe v, getMediaItemOnEnd sc p rd pe = Except.ok v →
        is2xx sc = true) ∧
    (∀ sc p rd pe, is2xx sc = false →
        batchCreateOnEnd sc (some p) rd pe =
            Except.error ("BatchCreate failed: " ++ statusToString sc ++
              " - " ++ ((errMessageOf p).getD rd)) ∧
          strIncludes (statusToString sc)
            ("BatchCreate failed: " ++ statusToString sc ++ " - " ++
              ((errMessageOf p).getD rd)) = true) ∧
    (∀ sc rd pe, batchCreateOnEnd sc none rd pe =
        Except.error ("Failed to parse response: " ++ pe)) ∧
    (∀ sc p rd pe v, batchCreateOnEnd sc p rd pe = Except.ok v →
        is2xx sc = true) ∧
    (∀ sc rd, is2xx sc = false →
        uploadBytesOnEnd sc rd =
            Except.error ("Upload failed: " ++ statusToString sc ++ " - " ++
              rd) ∧
          strIncludes (statusToString sc)
            ("Upload failed: " ++ statusToString sc ++ " - " ++ rd) =
            true) ∧
    (∀ sc rd v, uploadBytesOnEnd sc rd = Except.ok v → is2xx sc = true) := by
  refine ⟨fun sc p rd pe h => parsedOnEnd_non2xx _ sc p rd pe h,
    fun sc rd pe => rfl,
    fun sc p rd pe v h => parsedOnEnd_ok_2xx _ sc p rd pe v h,
    fun sc p rd pe h => parsedOnEnd_non2xx _ sc p rd pe h,
    fun sc rd pe => rfl,
    fun sc p rd pe v h => parsedOnEnd_ok_2xx _ sc p rd pe v h,
    fun sc p rd pe h => parsedOnEnd_non2xx _ sc p rd pe h,
    fun sc rd pe => rfl,
    fun sc p rd pe v h => parsedOnEnd_ok_2xx _ sc p rd pe v h,
    fun sc rd h => ⟨by simp [uploadBytesOnEnd, h],
      strIncludes_statusParts _ _ _⟩,
    fun sc rd v h => ?_⟩
  by_cases h2 : is2xx sc = true
  · exact h2
  · rw [Bool.not_eq_true] at h2
    simp [uploadBytesOnEnd, h2] at h

theorem response_handlers_error_behavior_witness :
    listOnEnd (some 404) (some (JsonVal.obj [])) "notfound" "x" =
        Except.error ("List request failed: " ++ statusToString (some 404) ++
          " - " ++ ((errMessageOf (JsonVal.obj [])).getD "notfound")) ∧
      is2xx (some 201) = true ∧ is2xx (some 204) = true :=
  ⟨(response_handlers_error_behavior.1 (some 404) (JsonVal.obj [])
      "notfound" "x" rfl).1,
    response_handlers_error_behavior.2.2.1 (some 201)
      (some (JsonVal.obj [])) "" "" (JsonVal.obj []) rfl,
    response_handlers_error_behavior.2.2.2.2.2.2.2.2.2.2 (some 204) "tok"
      "tok" rfl⟩

/-- An express query value: a string, an array of strings, or a nested
object. -/
inductive QueryVal where
  | str (s : String)
  | strArr (xs : List String)
  | nested
deriving DecidableEq

/-- JS truthiness of a query value: absent and the empty string are falsy;
arrays and objects are truthy. -/
def qTruthy : Option QueryVal → Bool
  | none => false
  | some (QueryVal.str s) => !(s == "")
  | some (QueryVal.strArr _) => true
  | some QueryVal.nested => true

/-- Template interpolation of a query value. -/
def qToString : Option QueryVal → String
  | none => "undefined"
  | some (QueryVal.str s) => s
  | some (QueryVal.strArr xs) => String.intercalate "," xs
  | some QueryVal.nested => "[object Object]"

/-- The guard on the code parameter: the handler proceeds only when code is
a truthy string (the source tests both falsiness and typeof). -/
def codeStr : Option QueryVal → Option String
  | some (QueryVal.str s) => if s == "" then none else some s
  | _ => none

/-- The externally observable actions of the OAuth callback handler: the
HTTP response it sends, the token write, closing the server, and settling
the pending promise. -/
inductive ServerAction where
  | send (status : Nat)
  | saveTok (t : OAuthTokens)
  | close
  | resolveClient
  | reject (msg : String)
deriving DecidableEq

/-- Whether an action settles the pending promise. -/
def isSettle : ServerAction → Bool
  | ServerAction.resolveClient => true
  | ServerAction.reject _ => true
  | _ => false

/-- The callback route handler of startOAuthServer (server.ts lines 132 to
214 and the identical handler in the auth module of src/photo-view.ts, lines
451 to 533), as the trace of actions it performs on one request: a truthy
error query rejects with 400; a missing or non-string or empty code rejects
with 400; a failed token exchange (getToken throws, message m) rejects with
500; a successful exchange stores the token, sends 200, and resolves.  In
every path the server is closed before the promise is settled (on success
both happen inside the scheduled cleanup). -/
def handleOAuthCallback (code error : Option QueryVal)
    (exch : String → Except String OAuthTokens) : List ServerAction :=
  if qTruthy error then
    [ServerAction.send 400, ServerAction.close,
      ServerAction.reject ("OAuth error: " ++ qToString error)]
  else
    match codeStr code with
    | none =>
      [ServerAction.send 400, ServerAction.close,
        ServerAction.reject "No authorization code received"]
    | some s =>
      match exch s with
      | Except.ok tokens =>
        [ServerAction.saveTok tokens, ServerAction.send 200,
          ServerAction.close, ServerAction.resolveClient]
      | Except.error m =>
        [ServerAction.send 500, ServerAction.close, ServerAction.reject m]

/-- C7: the redirect listener is one-shot.  Every handled callback request
settles the single pending promise exactly once and closes the server as
part of handling that request; the three failure outcomes (provider error,
missing or non-string code, failed exchange) reject, and the successful
exchange resolves with the client. -/
theorem oauth_callback_one_shot :
    ∀ (code error : Option QueryVal)
      (exch : String → Except String OAuthTokens),
      (handleOAuthCallback code error exch).countP isSettle = 1 ∧
      ServerAction.close ∈ handleOAuthCallback code error exch ∧
      (qTruthy error = true →
        handleOAuthCallback code error exch =
          [ServerAction.send 400, ServerAction.close,
            ServerAction.reject ("OAuth error: " ++ qToString error)]) ∧
      (qTruthy error = false → codeStr code = none →
        handleOAuthCallback code error exch =
          [ServerAction.send 400, ServerAction.close,
            ServerAction.reject "No authorization code received"]) ∧
      (∀ s t, qTruthy error = false → codeStr code = some s →
        exch s = Except.ok t →
        handleOAuthCallback code error exch =
          [ServerAction.saveTok t, ServerAction.send 200, ServerAction.close,
            ServerAction.resolveClient]) ∧
      (∀ s m, qTruthy error = false → codeStr code = some s →
        exch s = Except.error m →
        handleOAuthCallback code error exch =
          [ServerAction.send 500, ServerAction.close,
            ServerAction.reject m]) := by
  intro code error exch
  by_cases he : qTruthy error = true
  · have ht : handleOAuthCallback code error exch =
        [ServerAction.send 400, ServerAction.close,
          ServerAction.reject ("OAuth error: " ++ qToString error)] := by
      simp [handleOAuthCallback, he]
    refine ⟨by rw [ht]; rfl, by rw [ht]; simp, fun _ => ht,
      fun hf _ => ?_, fun s t hf _ _ => ?_, fun s m hf _ _ => ?_⟩
    · rw [hf] at he; exact absurd he (by decide)
    · rw [hf] at he; exact absurd he (by decide)
    · rw [hf] at he; exact absurd he (by decide)
  · rw [Bool.not_eq_true] at he
    cases hc : codeStr code with
    | none =>
      have ht : handleOAuthCallback code error exch =
          [ServerAction.send 400, ServerAction.close,
            ServerAction.reject "No authorization code received"] := by
        simp [handleOAuthCallback, he, hc]
      refine ⟨by rw [ht]; rfl, by rw [ht]; simp,
        fun hf => by rw [hf] at he; exact absurd he (by decide),
        fun _ _ => ht, fun s t _ hs _ => Option.noConfusion hs,
        fun s m _ hs _ => Option.noConfusion hs⟩
    | some s0 =>
      cases hx : exch s0 with
      | ok tokens =>
        have ht : handleOAuthCallback code error exch =
            [ServerAction.saveTok tokens, ServerAction.send 200,
              ServerAction.close, ServerAction.resolveClient] := by
          simp [handleOAuthCallback, he, hc, hx]
        refine ⟨by rw [ht]; rfl, by rw [ht]; simp,
          fun hf => by rw [hf] at he; exact absurd he (by decide),
          fun _ hn => Option.noConfusion hn,
          fun s t _ hs hxt => ?_, fun s m _ hs hxm => ?_⟩
        · injection hs with hs0
          subst hs0
          rw [hx] at hxt
          injection hxt with hts
          rw [← hts]
          exact ht
        · injection hs with hs0
          subst hs0
          rw [hx] at hxm
          exact Except.noConfusion hxm
      | error m0 =>
        have ht : handleOAuthCallback code error exch =
            [ServerAction.send 500, ServerAction.close,
              ServerAction.reject m0] := by
          simp [handleOAuthCallback, he, hc, hx]
        refine ⟨by rw [ht]; rfl, by rw [ht]; simp,
          fun hf => by rw [hf] at he; exact absurd he (by decide),
          fun _ hn => Option.noConfusion hn,
          fun s t _ hs hxt => ?_, fun s m _ hs hxm => ?_⟩
        · injection hs with hs0
          subst hs0
          rw [hx] at hxt
          exact Except.noConfusion hxt
        · injection hs with hs0
          subst hs0
          rw [hx] at hxm
          injection hxm with hms
          rw [← hms]
          exact ht

def c7Tokens : OAuthTokens :=
  { access_token := JsField.val "at", refresh_token := JsField.val "rt",
    scope := JsField.val "tasks.readonly", token_type := JsField.val "Bearer",
    expiry_date := JsField.val 1730000000, id_token := JsField.undef }

theorem oauth_callback_one_shot_witness :
    handleOAuthCallback (some (QueryVal.str "abc")) none
        (fun _ => Except.ok c7Tokens) =
      [ServerAction.saveTok c7Tokens, ServerAction.send 200,
        ServerAction.close, ServerAction.resolveClient] :=
  (oauth_callback_one_shot (some (QueryVal.str "abc")) none
      (fun _ => Except.ok c7Tokens)).2.2.2.2.1 "abc" c7Tokens rfl rfl rfl

/-- A task list row as used by the tasks CLI main. -/
structure TaskList where
  id : String
  title : String
deriving DecidableEq

/-- A task row as used by the tasks CLI main. -/
structure TaskRow where
  title : String
  status : String
  notes : Option String
deriving DecidableEq

/-- The fan-out of the tasks CLI main (src/onepassword.ts CLI module, lines
180 to 182, and the identical main of server.ts): Promise.all over
taskLists.map of getTasks applied to each id.  The external getTasks call is
the fetch argument, a pure function of the list id: each call is independent
and shares no mutable state with the others. -/
def mainAllTasks (fetch : String → List TaskRow)
    (taskLists : List TaskList) : List (List TaskRow) :=
  taskLists.map (fun tl => fetch tl.id)

/-- The display loop reads allTasks at the same index as the task list it is
printing. -/
def displayedTasks (allTasks : List (List TaskRow)) (i : Nat) :
    List TaskRow :=
  allTasks.getD i []

/-- C8: one getTasks call per task list (the fan-out has one entry per
list), and the tasks displayed under the i-th list are exactly the result of
the call made for that list, independent of the results of the others. -/
theorem fanout_index_correspondence :
    ∀ (fetch : String → List TaskRow) (taskLists : List TaskList),
      (mainAllTasks fetch taskLists).length = taskLists.length ∧
      ∀ i, (hi : i < taskLists.length) →
        displayedTasks (mainAllTasks fetch taskLists) i =
          fetch ((taskLists.get ⟨i, hi⟩).id) := by
  intro fetch taskLists
  refine ⟨List.length_map _ _, ?_⟩
  intro i hi
  simp [displayedTasks, mainAllTasks, List.getD, List.getElem?_map,
    List.getElem?_eq_getElem hi]

def c8Lists : List TaskList :=
  [{ id := "l1", title := "Home" }, { id := "l2", title := "Work" }]

def c8Fetch : String → List TaskRow :=
  fun listId =>
    if listId = "l2" then
      [{ title := "write report", status := "needsAction", notes := none }]
    else []

theorem fanout_index_correspondence_witness :
    displayedTasks (mainAllTasks c8Fetch c8Lists) 1 =
      [{ title := "write report", status := "needsAction",
         notes := none }] := by
  have h := (fanout_index_correspondence c8Fetch c8Lists).2 1 (by decide)
  rw [h]
  rfl

/-- SimpleMediaItem of a NewMediaItem (src/photo-view.ts lines 638 to 644). -/
structure SimpleMediaItem where
  fileName : String
  uploadToken : String
deriving DecidableEq

/-- NewMediaItem (src/photo-view.ts lines 638 to 644). -/
structure NewMediaItem where
  description : Option String
  simpleMediaItem : SimpleMediaItem
deriving DecidableEq

/-- An entry of the uploadTokens argument of batchCreateMediaItems
(src/photo-view.ts lines 777 to 783). -/
structure UploadTokenItem where
  token : String
  fileName : String
  description : Option String
deriving DecidableEq

/-- The newMediaItems records built by batchCreateMediaItems
(src/photo-view.ts lines 791 to 797): the description falls back to the
empty string, the fileName and token are copied. -/
def newMediaItemsOf (uploadTokens : List UploadTokenItem) :
    List NewMediaItem :=
  uploadTokens.map (fun item =>
    { description := some (item.description.getD ""),
      simpleMediaItem :=
        { fileName := item.fileName, uploadToken := item.token } })

/-- The single batchCreate entry built by uploadFile (src/photo-view.ts
lines 883 to 889): the fileName is the hard-coded string, not the basename
of filePath (which is computed but used only for logging). -/
def uploadFileBatchArgs (_filePath : String) (uploadToken : String)
    (description : Option String) : List UploadTokenItem :=
  [{ token := uploadToken, fileName := "the cat to be uploaded",
     description := description }]

/-- C9: the media item registered by uploadFile always carries the
hard-coded fileName, whatever filePath and description are; the request is
independent of filePath, so the on-disk file name never reaches the
item-creation request. -/
theorem uploadFile_hardcoded_fileName :
    ∀ (filePath filePath2 uploadToken : String)
      (description : Option String),
      (newMediaItemsOf (uploadFileBatchArgs filePath uploadToken
          description)).map (fun m => m.simpleMediaItem.fileName) =
        ["the cat to be uploaded"] ∧
      uploadFileBatchArgs filePath uploadToken description =
        uploadFileBatchArgs filePath2 uploadToken description :=
  fun _ _ _ _ => ⟨rfl, rfl⟩

end GTCli
